import Mathlib

/-!
# Verification of BratwurstPower.py against its specification

Shallow embedding of the two source modules:

* `pca9557.py` — driver for the PCA9557 I/O-expander chip: the `write_bit`
  helper and the stateful `PCA9557` class with its three shadow registers
  (`conf`, `out`, `inv`) and its register writes on the I2C bus.
* `bratwurst.py` — the daemon: the `pcapins` pin-state table, the MQTT
  command dispatcher `mqtt_on_message`, and the sensor poller `read_inas`.

Python integers are unbounded, so they are embedded as `Int`.  The bitwise
operators `|`, `&`, `~`, `<<` of Python are defined on two's-complement
integers; `pyOr`, `pyAnd`, `pyNot`, `pyShl` below realise exactly those
semantics (for nonnegative operands they agree with `Nat.lor`/`Nat.land`,
and `a AND (NOT b) = a - (a AND b)` for naturals `a`, `b`).
-/

/-- Python `~a` on unbounded two's-complement integers: `-a - 1`. -/
def pyNot (a : Int) : Int := -a - 1

/-- Python `a << n` for a nonnegative shift amount: multiplication by `2 ^ n`. -/
def pyShl (a : Int) (n : Nat) : Int := a * ((2 ^ n : Nat) : Int)

/-- Python `a & b` on unbounded two's-complement integers.  For two
nonnegative operands it is `Nat.land`; a negative operand `-(n+1)` acts as
the complement of `n`, using `m AND (NOT n) = m - (m AND n)`. -/
def pyAnd (a b : Int) : Int :=
  match a, b with
  | .ofNat m, .ofNat n => .ofNat (m &&& n)
  | .ofNat m, .negSucc n => .ofNat (m - (m &&& n))
  | .negSucc m, .ofNat n => .ofNat (n - (n &&& m))
  | .negSucc m, .negSucc n => .negSucc (m ||| n)

/-- Python `a | b` on unbounded two's-complement integers (De Morgan dual
of `pyAnd`). -/
def pyOr (a b : Int) : Int :=
  match a, b with
  | .ofNat m, .ofNat n => .ofNat (m ||| n)
  | .ofNat m, .negSucc n => .negSucc (n - (n &&& m))
  | .negSucc m, .ofNat n => .negSucc (m - (m &&& n))
  | .negSucc m, .negSucc n => .negSucc (m &&& n)

/-- Source `pca9557.py`, lines 4-9:
`write_bit(inbyte, bit, value)` is `inbyte |= (1 << bit)` when `value` is
truthy and `inbyte &= ~(1 << bit)` otherwise.  Python truthiness of the
`bool | int` argument is `value != 0`. -/
def write_bit (inbyte : Int) (bit : Nat) (value : Int) : Int :=
  if value ≠ 0 then pyOr inbyte (pyShl 1 bit)
  else pyAnd inbyte (pyNot (pyShl 1 bit))

/-- A write of one byte to one register of the chip
(`bus.write_byte_data(address, reg, byte)`): the pair (register, byte). -/
abbrev BusWrite := Nat × Int

/-- Source `pca9557.py`: the three shadow registers of the `PCA9557` class
(`self.conf`, `self.out`, `self.inv`). -/
structure PCA9557 where
  conf : Int
  out : Int
  inv : Int
deriving DecidableEq

namespace PCA9557

/-- Register number of the input port register. -/
def REG_INP : Nat := 0

/-- Register number of the output port register. -/
def REG_OUT : Nat := 1

/-- Register number of the polarity inversion register. -/
def REG_INV : Nat := 2

/-- Register number of the configuration (direction) register. -/
def REG_DIR : Nat := 3

/-- Direction constant: input. -/
def DIR_IN : Int := 1

/-- Direction constant: output. -/
def DIR_OUT : Int := 0

/-- Method `write_inv(inv=None)`, lines 60-65: write the polarity register (the
shadow value when the argument is `None`) and store the written byte. -/
def write_inv (p : PCA9557) (invArg : Option Int) : PCA9557 × List BusWrite :=
  let i := invArg.getD p.inv
  ({ p with inv := i }, [(REG_INV, i)])

/-- Method `write_direction(direction=None)`, lines 67-72. -/
def write_direction (p : PCA9557) (dirArg : Option Int) : PCA9557 × List BusWrite :=
  let d := dirArg.getD p.conf
  ({ p with conf := d }, [(REG_DIR, d)])

/-- Method `write_output(outputs=None)`, lines 74-79. -/
def write_output (p : PCA9557) (outArg : Option Int) : PCA9557 × List BusWrite :=
  let o := outArg.getD p.out
  ({ p with out := o }, [(REG_OUT, o)])

/-- Constructor `__init__`, lines 20-32: set the shadow registers to the chip's reset
defaults, then set all pins to non-inverted inputs.  Returns the driver
state and the bus writes it issued. -/
def init : PCA9557 × List BusWrite :=
  let p0 : PCA9557 := { conf := 0b11111111, out := 0b00000000, inv := 0b11110000 }
  let (p1, w1) := p0.write_inv (some 0b00000000)
  let (p2, w2) := p1.write_direction (some 0b11111111)
  (p2, w1 ++ w2)

/-- Method `read_pin(pin)`, lines 56-58: `(self.read() >> pin) % 2`, where
`businput` is the byte returned by the bus read of the input register. -/
def read_pin (_p : PCA9557) (businput : Int) (pin : Nat) : Int :=
  (businput >>> (pin : Int)) % 2

/-- Method `value(pin, value=None)`, lines 34-42: with a value, set the bit in the
output shadow and write the whole output register; without one, read the
pin from the input register (`businput` is the byte the bus returns).
Returns the new state, the bus writes issued, and the Python return value. -/
def value (p : PCA9557) (businput : Int) (pin : Nat) (valArg : Option Int) :
    PCA9557 × List BusWrite × Int :=
  match valArg with
  | some v =>
      let p1 := { p with out := write_bit p.out pin v }
      let (p2, w) := p1.write_output none
      (p2, w, v)
  | none => (p, [], p.read_pin businput pin)

/-- Method `direction(pin, direction)`, lines 44-48. -/
def direction (p : PCA9557) (pin : Nat) (dir : Int) : PCA9557 × List BusWrite × Int :=
  let p1 := { p with conf := write_bit p.conf pin dir }
  let (p2, w) := p1.write_direction none
  (p2, w, dir)

/-- Method `invert(pin, inverted)`, lines 50-54. -/
def invert (p : PCA9557) (pin : Nat) (inverted : Int) : PCA9557 × List BusWrite × Int :=
  let p1 := { p with inv := write_bit p.inv pin inverted }
  let (p2, w) := p1.write_inv none
  (p2, w, inverted)

end PCA9557

/-- The driver state right after startup (`bratwurst.py` line 116 constructs
the `PCA9557` object). -/
def pcaStart : PCA9557 := PCA9557.init.1

/-- Shifting: `1 << k` in the model is the natural number `1 <<< k`. -/
lemma pyShl_one (k : Nat) : pyShl 1 k = Int.ofNat (1 <<< k) := by
  simp [pyShl, Nat.shiftLeft_eq]

/-- Applying `pyNot` to a natural number gives the corresponding `negSucc`. -/
lemma pyNot_ofNat (m : Nat) : pyNot (Int.ofNat m) = Int.negSucc m := by
  simp [pyNot, Int.negSucc_eq]
  ring

/-- Setting a bit of a natural-number byte, at the `Nat` level. -/
lemma write_bit_set (b k : Nat) : write_bit (b : Int) k 1 = ((b ||| (1 <<< k) : Nat) : Int) := by
  rw [write_bit, if_pos (by decide), pyShl_one]
  rfl

/-- Clearing a bit of a natural-number byte, at the `Nat` level:
`b & ~(1 << k)` is `b - (b & (1 << k))` because the bits of `b & (1 << k)`
are a subset of the bits of `b`. -/
lemma write_bit_clear (b k : Nat) :
    write_bit (b : Int) k 0 = ((b - (b &&& (1 <<< k)) : Nat) : Int) := by
  rw [write_bit, if_neg (by decide), pyShl_one, pyNot_ofNat]
  rfl

/-- Clearing as `b & ~(1 << k)` for a natural number `b`, at the `Nat` level. -/
lemma pyAnd_not_shl (b k : Nat) :
    pyAnd (b : Int) (pyNot (pyShl 1 k)) = ((b - (b &&& (1 <<< k)) : Nat) : Int) := by
  rw [pyShl_one, pyNot_ofNat]
  rfl

/-- Testing a bit of a natural number cast to `Int` is `Nat.testBit`. -/
lemma testBit_natCast (m j : Nat) : Int.testBit ((m : Nat) : Int) j = Nat.testBit m j := rfl

/-- The `Nat`-level content of claim C1, checked over all bytes and bit
indices. -/
lemma write_bit_byteFacts :
    ∀ b : Nat, b < 256 → ∀ k : Nat, k < 8 →
      (Nat.testBit (b ||| (1 <<< k)) k = true ∧
       Nat.testBit (b - (b &&& (1 <<< k))) k = false ∧
       (∀ j : Nat, j < 8 → j ≠ k →
         Nat.testBit (b ||| (1 <<< k)) j = Nat.testBit b j ∧
         Nat.testBit (b - (b &&& (1 <<< k))) j = Nat.testBit b j) ∧
       (b ||| (1 <<< k)) - ((b ||| (1 <<< k)) &&& (1 <<< k)) = b - (b &&& (1 <<< k))) := by
  set_option maxRecDepth 10000 in decide

/-- Claim C1: for every byte `b` in 0..255, bit index `k` in 0..7, and
boolean `v`, `write_bit(b, k, v)` sets (`v` true) or clears (`v` false)
exactly bit `k`, leaves every other bit of the byte unchanged, and
`write_bit(write_bit(b, k, 1), k, 0)` equals `b & ~(1 << k)`. -/
theorem C1_write_bit (b : Nat) (hb : b < 256) (k : Nat) (hk : k < 8) (v : Bool) :
    Int.testBit (write_bit (b : Int) k (if v then 1 else 0)) k = v ∧
    (∀ j : Nat, j < 8 → j ≠ k →
      Int.testBit (write_bit (b : Int) k (if v then 1 else 0)) j = Int.testBit (b : Int) j) ∧
    write_bit (write_bit (b : Int) k 1) k 0 = pyAnd (b : Int) (pyNot (pyShl 1 k)) := by
  obtain ⟨h1, h2, h3, h4⟩ := write_bit_byteFacts b hb k hk
  have comp : write_bit (write_bit (b : Int) k 1) k 0 = pyAnd (b : Int) (pyNot (pyShl 1 k)) := by
    rw [write_bit_set, write_bit_clear, pyAnd_not_shl, h4]
  cases v with
  | true =>
      refine ⟨?_, ?_, comp⟩
      · rw [if_pos rfl, write_bit_set, testBit_natCast, h1]
      · intro j hj hjk
        rw [if_pos rfl, write_bit_set, testBit_natCast, testBit_natCast, (h3 j hj hjk).1]
  | false =>
      refine ⟨?_, ?_, comp⟩
      · rw [if_neg (by decide), write_bit_clear, testBit_natCast, h2]
      · intro j hj hjk
        rw [if_neg (by decide), write_bit_clear, testBit_natCast, testBit_natCast, (h3 j hj hjk).2]

/-- Witness for C1 at `b = 170`, `k = 2`, `v = true` and `j = 5`. -/
theorem C1_write_bit_witness :
    Int.testBit (write_bit 170 2 1) 2 = true ∧
    Int.testBit (write_bit 170 2 1) 5 = Int.testBit (170 : Int) 5 ∧
    write_bit (write_bit 170 2 1) 2 0 = pyAnd 170 (pyNot (pyShl 1 2)) := by
  have h := C1_write_bit 170 (by decide) 2 (by decide) true
  exact ⟨h.1, h.2.1 5 (by decide) (by decide), h.2.2⟩

/-- Claim C9: after `PCA9557.__init__` completes, the direction shadow is
0xFF (all inputs) and the polarity shadow is 0x00, and exactly those two
bytes were written, to the polarity-inversion and the direction register. -/
theorem C9_init :
    PCA9557.init =
      ({ conf := 0xFF, out := 0x00, inv := 0x00 },
       [(PCA9557.REG_INV, 0x00), (PCA9557.REG_DIR, 0xFF)]) := by
  decide

/-!
## Embedding of `bratwurst.py`

JSON values as produced by `json.loads`, the pin-state table `pcapins`,
and the MQTT command dispatcher `mqtt_on_message` (lines 167-202).
-/

/-- A parsed JSON value (`json.loads` result): object, array, string,
integer number, boolean, or null.  JSON numbers are modelled as integers;
no command in the protocol carries a fractional number. -/
inductive Json where
  | null : Json
  | bool (b : Bool) : Json
  | num (n : Int) : Json
  | str (s : String) : Json
  | arr (elems : List Json) : Json
  | obj (fields : List (String × Json)) : Json

mutual

/-- Python `repr` of a parsed JSON value (used by `str` on containers). -/
def pyRepr : Json → String
  | .null => "None"
  | .bool true => "True"
  | .bool false => "False"
  | .num n => toString n
  | .str s => "\x27" ++ s ++ "\x27"
  | .arr es => "[" ++ String.intercalate ", " (pyReprList es) ++ "]"
  | .obj fs => "\x7b" ++ String.intercalate ", " (pyReprFields fs) ++ "\x7d"

/-- The map of `pyRepr` over a list of values. -/
def pyReprList : List Json → List String
  | [] => []
  | e :: es => pyRepr e :: pyReprList es

/-- The map of `pyRepr` over the fields of an object. -/
def pyReprFields : List (String × Json) → List String
  | [] => []
  | (k, v) :: fs => ("\x27" ++ k ++ "\x27: " ++ pyRepr v) :: pyReprFields fs

end

/-- Python `str(value)` applied to a parsed JSON value
(`bratwurst.py` line 177): the string itself for strings, `repr`-style
rendering otherwise (`True`/`False`/`None` for the constants). -/
def pyStr : Json → String
  | .str s => s
  | v => pyRepr v

/-- Python `str.lower()` on one character, for the ASCII range (the only
range the command synonyms use). -/
def pyLowerChar (c : Char) : Char :=
  if 'A' ≤ c ∧ c ≤ 'Z' then Char.ofNat (c.toNat + 32) else c

/-- Python `value.lower()` (`bratwurst.py` lines 182, 187, 192): ASCII
lowercasing of the stringified command value. -/
def pyLower (s : String) : String := ⟨s.data.map pyLowerChar⟩

/-- One entry of the `pcapins` table (`bratwurst.py` lines 78-109): the
fixed pin index plus the mutable `value`, `direction` and `state` fields.
`value` and `direction` start as `None` (here `none`). -/
structure PinEntry where
  pin : Nat
  value : Option Int
  direction : Option Int
  state : String
deriving DecidableEq

/-- The pin-state table: logical pin name to entry, in insertion order
(Python dicts preserve insertion order, which `json.dumps` reproduces). -/
abbrev PinTable := List (String × PinEntry)

/-- The `pcapins` table right after startup: the literal of lines 78-103
with the default fields `value = None`, `direction = None`,
`state = "default"` added by the loop of lines 106-109. -/
def pcapins : PinTable :=
  [("LED", { pin := 0, value := none, direction := none, state := "default" }),
   ("IO1", { pin := 1, value := none, direction := none, state := "default" }),
   ("IO2", { pin := 2, value := none, direction := none, state := "default" }),
   ("IO3", { pin := 3, value := none, direction := none, state := "default" }),
   ("IO4", { pin := 4, value := none, direction := none, state := "default" }),
   ("USB2", { pin := 5, value := none, direction := none, state := "default" }),
   ("USB1", { pin := 6, value := none, direction := none, state := "default" }),
   ("EXT", { pin := 7, value := none, direction := none, state := "default" })]

/-- Dictionary lookup (`pcapins[key]`, and `key in pcapins.keys()` as
`isSome` of the result). -/
def lookupPin : PinTable → String → Option PinEntry
  | [], _ => none
  | (k, e) :: rest, key => if k = key then some e else lookupPin rest key

/-- Dictionary update of an existing key (`pcapins[key][...] = ...`):
replace the first entry with the given key, keeping the order.  The
dispatcher only ever updates keys that are present. -/
def setPin : PinTable → String → PinEntry → PinTable
  | [], _, _ => []
  | (k, e) :: rest, key, entry =>
      if k = key then (key, entry) :: rest else (k, e) :: setPin rest key entry

/-- A reported (logged) event of the message handler: the `logging.info` /
`logging.error` calls of `bratwurst.py` lines 173-202. -/
inductive Event where
  | forcingOff (key : String) : Event
  | forcingOn (key : String) : Event
  | releasing (key : String) : Event
  | invalidValue (key value : String) : Event
  | invalidName (key : String) : Event
  | jsonError : Event
deriving DecidableEq

/-- Result of handling (part of) a command message: the updated pin table,
the updated driver state, the bus writes issued, and the events logged. -/
structure DispatchResult where
  pins : PinTable
  pca : PCA9557
  writes : List BusWrite
  events : List Event
deriving DecidableEq

/-- One iteration of the `for key, value in command.items()` loop of
`mqtt_on_message` (`bratwurst.py` lines 175-202). -/
def dispatchEntry (pins : PinTable) (pca : PCA9557) (key : String) (value0 : Json) :
    DispatchResult :=
  match lookupPin pins key with
  | some entry =>
      let value := pyStr value0
      let pinname := entry.pin
      let v := entry.value
      let d := entry.direction
      let s := entry.state
      if pyLower value ∈ ["0", "off", "false"] then
        let (pca1, w1, rv) := pca.value 0 pinname (some 0)
        let (pca2, w2, rd) := pca1.direction pinname PCA9557.DIR_OUT
        { pins := setPin pins key { pin := pinname, value := some rv, direction := some rd, state := "off" },
          pca := pca2, writes := w1 ++ w2, events := [.forcingOff key] }
      else if pyLower value ∈ ["1", "on", "true"] then
        let (pca1, w1, rv) := pca.value 0 pinname (some 1)
        let (pca2, w2, rd) := pca1.direction pinname PCA9557.DIR_OUT
        { pins := setPin pins key { pin := pinname, value := some rv, direction := some rd, state := "on" },
          pca := pca2, writes := w1 ++ w2, events := [.forcingOn key] }
      else if pyLower value ∈ ["-1", "release", "default"] then
        let (pca1, w1, rd) := pca.direction pinname PCA9557.DIR_IN
        { pins := setPin pins key { pin := pinname, value := v, direction := some rd, state := "default" },
          pca := pca1, writes := w1, events := [.releasing key] }
      else
        { pins := setPin pins key { pin := pinname, value := v, direction := d, state := s },
          pca := pca, writes := [], events := [.invalidValue key value] }
  | none =>
      { pins := pins, pca := pca, writes := [], events := [.invalidName key] }

/-- The whole `for key, value in command.items()` loop, left to right. -/
def dispatchItems : PinTable → PCA9557 → List (String × Json) → DispatchResult
  | pins, pca, [] => { pins := pins, pca := pca, writes := [], events := [] }
  | pins, pca, (k, v) :: rest =>
      let r1 := dispatchEntry pins pca k v
      let r2 := dispatchItems r1.pins r1.pca rest
      { pins := r2.pins, pca := r2.pca, writes := r1.writes ++ r2.writes,
        events := r1.events ++ r2.events }

/-- An uncaught Python exception of the message handler. -/
inductive PyError where
  | unicodeDecodeError : PyError
  | attributeError : PyError
deriving DecidableEq

/-- An inbound MQTT payload (opaque bytes), modelled by the outcomes of
the stdlib calls the handler applies to it: `invalidUtf8` stands for bytes
that are not valid UTF-8, so `bytes.decode()` raises `UnicodeDecodeError`;
`decoded parsed` stands for valid UTF-8 text, with `parsed` the outcome of
`json.loads` on it (`none` for a `json.JSONDecodeError`, `some v` for a
successful parse yielding `v`). -/
inductive Payload where
  | invalidUtf8 : Payload
  | decoded (parsed : Option Json) : Payload

/-- Handler `mqtt_on_message` (`bratwurst.py` lines 167-202).  Line 169
runs `msg.payload.decode()` before the `try`, so a payload that is not
valid UTF-8 raises an uncaught `UnicodeDecodeError`.  For UTF-8 payloads,
a `json.JSONDecodeError` from `json.loads` is caught, logged and the
message discarded; on a successful parse, `command.items()` on a value
that is not a dict raises an uncaught `AttributeError`; a dict is
dispatched entry by entry. -/
def mqtt_on_message (pins : PinTable) (pca : PCA9557) (payload : Payload) :
    Except PyError DispatchResult :=
  match payload with
  | .invalidUtf8 => .error PyError.unicodeDecodeError
  | .decoded none => .ok { pins := pins, pca := pca, writes := [], events := [.jsonError] }
  | .decoded (some (Json.obj items)) => .ok (dispatchItems pins pca items)
  | .decoded (some _) => .error PyError.attributeError

/-- The states of the pin table and the expander driver reachable from
startup (`pcapins` defaults, driver freshly constructed) by any sequence
of handled MQTT command messages. -/
inductive Reachable : PinTable → PCA9557 → Prop where
  | start : Reachable pcapins pcaStart
  | step {pins : PinTable} {pca : PCA9557} {payload : Payload} {r : DispatchResult} :
      Reachable pins pca → mqtt_on_message pins pca payload = .ok r →
      Reachable r.pins r.pca

/-!
## Lemmas about the pin table and the dispatcher branches
-/

/-- Updating a key with the entry it already holds leaves the table as is. -/
lemma setPin_self (pins : PinTable) (key : String) (e : PinEntry)
    (h : lookupPin pins key = some e) : setPin pins key e = pins := by
  induction pins with
  | nil => simp [lookupPin] at h
  | cons kv rest ih =>
      obtain ⟨k, e'⟩ := kv
      simp only [setPin]
      by_cases hk : k = key
      · rw [if_pos hk]
        rw [lookupPin, if_pos hk] at h
        obtain rfl : e' = e := by injection h
        rw [hk]
      · rw [if_neg hk]
        rw [lookupPin, if_neg hk] at h
        rw [ih h]

/-- After an update of `key`, looking up `key` gives the new entry
(provided the key was present). -/
lemma lookupPin_setPin_self (pins : PinTable) (key : String) (e e' : PinEntry)
    (h : lookupPin pins key = some e') :
    lookupPin (setPin pins key e) key = some e := by
  induction pins with
  | nil => simp [lookupPin] at h
  | cons kv rest ih =>
      obtain ⟨k, e''⟩ := kv
      simp only [setPin]
      by_cases hk : k = key
      · rw [if_pos hk, lookupPin, if_pos rfl]
      · rw [if_neg hk, lookupPin, if_neg hk]
        rw [lookupPin, if_neg hk] at h
        exact ih h

/-- An update of `key` does not change the lookup of any other key. -/
lemma lookupPin_setPin_ne (pins : PinTable) (key : String) (e : PinEntry)
    (k' : String) (h : k' ≠ key) :
    lookupPin (setPin pins key e) k' = lookupPin pins k' := by
  induction pins with
  | nil => rfl
  | cons kv rest ih =>
      obtain ⟨k, e''⟩ := kv
      simp only [setPin]
      by_cases hk : k = key
      · rw [if_pos hk]
        have hkey : ¬ key = k' := fun hh => h hh.symm
        have hk2 : ¬ k = k' := by rw [hk]; exact hkey
        rw [lookupPin, if_neg hkey, lookupPin, if_neg hk2]
      · rw [if_neg hk]
        by_cases hk' : k = k'
        · rw [lookupPin, if_pos hk', lookupPin, if_pos hk']
        · rw [lookupPin, if_neg hk', lookupPin, if_neg hk', ih]

/-- An update never adds or removes keys. -/
lemma isSome_lookupPin_setPin (pins : PinTable) (key : String) (e : PinEntry)
    (k' : String) :
    (lookupPin (setPin pins key e) k').isSome = (lookupPin pins k').isSome := by
  induction pins with
  | nil => rfl
  | cons kv rest ih =>
      obtain ⟨k, e''⟩ := kv
      simp only [setPin]
      by_cases hk : k = key
      · rw [if_pos hk]
        by_cases hk' : key = k'
        · have hk2 : k = k' := by rw [hk, hk']
          rw [lookupPin, if_pos hk', lookupPin, if_pos hk2]
          rfl
        · have hk2 : ¬ k = k' := by rw [hk]; exact hk'
          rw [lookupPin, if_neg hk', lookupPin, if_neg hk2]
      · rw [if_neg hk]
        by_cases hk' : k = k'
        · rw [lookupPin, if_pos hk', lookupPin, if_pos hk']
        · rw [lookupPin, if_neg hk', lookupPin, if_neg hk', ih]

/-- Every pair of an updated table is an old pair or the new pair. -/
lemma mem_setPin {pins : PinTable} {key : String} {e : PinEntry}
    {kv : String × PinEntry} (h : kv ∈ setPin pins key e) :
    kv ∈ pins ∨ kv = (key, e) := by
  induction pins with
  | nil => simp [setPin] at h
  | cons kv' rest ih =>
      obtain ⟨k, e''⟩ := kv'
      simp only [setPin] at h
      by_cases hk : k = key
      · rw [if_pos hk] at h
        rcases List.mem_cons.mp h with h' | h'
        · right; exact h'
        · left; exact List.mem_cons_of_mem _ h'
      · rw [if_neg hk] at h
        rcases List.mem_cons.mp h with h' | h'
        · left; rw [h']; exact List.mem_cons_self _ _
        · rcases ih h' with h'' | h''
          · left; exact List.mem_cons_of_mem _ h''
          · right; exact h''

/-- A successful lookup is a pair of the table. -/
lemma lookupPin_mem {pins : PinTable} {key : String} {e : PinEntry}
    (h : lookupPin pins key = some e) : (key, e) ∈ pins := by
  induction pins with
  | nil => simp [lookupPin] at h
  | cons kv rest ih =>
      obtain ⟨k, e''⟩ := kv
      by_cases hk : k = key
      · rw [lookupPin, if_pos hk] at h
        obtain rfl : e'' = e := by injection h
        rw [← hk]
        exact List.mem_cons_self _ _
      · rw [lookupPin, if_neg hk] at h
        exact List.mem_cons_of_mem _ (ih h)

/-- An unrecognized pin name: the entry is skipped, one error is logged. -/
lemma dispatchEntry_unknown (pins : PinTable) (pca : PCA9557) (key : String)
    (v : Json) (h : lookupPin pins key = none) :
    dispatchEntry pins pca key v =
      { pins := pins, pca := pca, writes := [], events := [Event.invalidName key] } := by
  simp only [dispatchEntry, h]

/-- The `{"0","off","false"}` branch of the dispatcher. -/
lemma dispatchEntry_off (pins : PinTable) (pca : PCA9557) (key : String)
    (v : Json) (entry : PinEntry) (hkey : lookupPin pins key = some entry)
    (hv : pyLower (pyStr v) ∈ ["0", "off", "false"]) :
    dispatchEntry pins pca key v =
      { pins := setPin pins key { pin := entry.pin, value := some 0,
                                  direction := some PCA9557.DIR_OUT, state := "off" },
        pca := { conf := write_bit pca.conf entry.pin PCA9557.DIR_OUT,
                 out := write_bit pca.out entry.pin 0, inv := pca.inv },
        writes := [(PCA9557.REG_OUT, write_bit pca.out entry.pin 0),
                   (PCA9557.REG_DIR, write_bit pca.conf entry.pin PCA9557.DIR_OUT)],
        events := [Event.forcingOff key] } := by
  simp only [dispatchEntry, hkey]
  rw [if_pos hv]
  simp [PCA9557.value, PCA9557.direction, PCA9557.write_output, PCA9557.write_direction]

/-- The `{"1","on","true"}` branch of the dispatcher. -/
lemma dispatchEntry_on (pins : PinTable) (pca : PCA9557) (key : String)
    (v : Json) (entry : PinEntry) (hkey : lookupPin pins key = some entry)
    (hv : pyLower (pyStr v) ∈ ["1", "on", "true"]) :
    dispatchEntry pins pca key v =
      { pins := setPin pins key { pin := entry.pin, value := some 1,
                                  direction := some PCA9557.DIR_OUT, state := "on" },
        pca := { conf := write_bit pca.conf entry.pin PCA9557.DIR_OUT,
                 out := write_bit pca.out entry.pin 1, inv := pca.inv },
        writes := [(PCA9557.REG_OUT, write_bit pca.out entry.pin 1),
                   (PCA9557.REG_DIR, write_bit pca.conf entry.pin PCA9557.DIR_OUT)],
        events := [Event.forcingOn key] } := by
  have hv' : pyLower (pyStr v) = "1" ∨ pyLower (pyStr v) = "on" ∨ pyLower (pyStr v) = "true" := by
    simpa using hv
  have hnot0 : pyLower (pyStr v) ∉ ["0", "off", "false"] := by
    rcases hv' with h | h | h <;> rw [h] <;> decide
  simp only [dispatchEntry, hkey]
  rw [if_neg hnot0, if_pos hv]
  simp [PCA9557.value, PCA9557.direction, PCA9557.write_output, PCA9557.write_direction]

/-- The `{"-1","release","default"}` branch of the dispatcher. -/
lemma dispatchEntry_release (pins : PinTable) (pca : PCA9557) (key : String)
    (v : Json) (entry : PinEntry) (hkey : lookupPin pins key = some entry)
    (hv : pyLower (pyStr v) ∈ ["-1", "release", "default"]) :
    dispatchEntry pins pca key v =
      { pins := setPin pins key { pin := entry.pin, value := entry.value,
                                  direction := some PCA9557.DIR_IN, state := "default" },
        pca := { conf := write_bit pca.conf entry.pin PCA9557.DIR_IN,
                 out := pca.out, inv := pca.inv },
        writes := [(PCA9557.REG_DIR, write_bit pca.conf entry.pin PCA9557.DIR_IN)],
        events := [Event.releasing key] } := by
  have hv' : pyLower (pyStr v) = "-1" ∨ pyLower (pyStr v) = "release" ∨
      pyLower (pyStr v) = "default" := by
    simpa using hv
  have hnot0 : pyLower (pyStr v) ∉ ["0", "off", "false"] := by
    rcases hv' with h | h | h <;> rw [h] <;> decide
  have hnot1 : pyLower (pyStr v) ∉ ["1", "on", "true"] := by
    rcases hv' with h | h | h <;> rw [h] <;> decide
  simp only [dispatchEntry, hkey]
  rw [if_neg hnot0, if_neg hnot1, if_pos hv]
  simp [PCA9557.direction, PCA9557.write_direction]

/-- The invalid-value branch of the dispatcher: everything unchanged, one
error logged. -/
lemma dispatchEntry_invalid (pins : PinTable) (pca : PCA9557) (key : String)
    (v : Json) (entry : PinEntry) (hkey : lookupPin pins key = some entry)
    (h0 : pyLower (pyStr v) ∉ ["0", "off", "false"])
    (h1 : pyLower (pyStr v) ∉ ["1", "on", "true"])
    (h2 : pyLower (pyStr v) ∉ ["-1", "release", "default"]) :
    dispatchEntry pins pca key v =
      { pins := pins, pca := pca, writes := [],
        events := [Event.invalidValue key (pyStr v)] } := by
  simp only [dispatchEntry, hkey]
  rw [if_neg h0, if_neg h1, if_neg h2]
  have : ({ pin := entry.pin, value := entry.value,
            direction := entry.direction, state := entry.state } : PinEntry) = entry := rfl
  rw [this, setPin_self pins key entry hkey]

/-!
## Claims about the command dispatcher: C3, C6, C8, C10
-/

/-- Claim C3: dispatching a one-entry command that maps a recognized pin
name to an on-synonym (`"1"`, `"on"`, `"true"`, case-insensitive) sets that
pin's entry to direction `OUT`, level 1, mode `"on"`, issues exactly one
output-register write followed by one direction-register write, logs the
forcing event, and leaves every other pin's entry unchanged. -/
theorem C3_on_command (pins : PinTable) (pca : PCA9557) (key : String) (v : Json)
    (entry : PinEntry) (hkey : lookupPin pins key = some entry)
    (hv : pyLower (pyStr v) ∈ ["1", "on", "true"]) :
    mqtt_on_message pins pca (Payload.decoded (some (Json.obj [(key, v)]))) =
      .ok (dispatchItems pins pca [(key, v)]) ∧
    lookupPin (dispatchItems pins pca [(key, v)]).pins key =
      some { pin := entry.pin, value := some 1,
             direction := some PCA9557.DIR_OUT, state := "on" } ∧
    (∀ k' : String, k' ≠ key →
      lookupPin (dispatchItems pins pca [(key, v)]).pins k' = lookupPin pins k') ∧
    (dispatchItems pins pca [(key, v)]).writes =
      [(PCA9557.REG_OUT, write_bit pca.out entry.pin 1),
       (PCA9557.REG_DIR, write_bit pca.conf entry.pin PCA9557.DIR_OUT)] ∧
    (dispatchItems pins pca [(key, v)]).events = [Event.forcingOn key] := by
  have hd := dispatchEntry_on pins pca key v entry hkey hv
  have hitems : dispatchItems pins pca [(key, v)] =
      { pins := (dispatchEntry pins pca key v).pins,
        pca := (dispatchEntry pins pca key v).pca,
        writes := (dispatchEntry pins pca key v).writes,
        events := (dispatchEntry pins pca key v).events } := by
    simp [dispatchItems]
  refine ⟨rfl, ?_, ?_, ?_, ?_⟩
  · rw [hitems, hd]
    exact lookupPin_setPin_self pins key _ entry hkey
  · intro k' hk'
    rw [hitems, hd]
    exact lookupPin_setPin_ne pins key _ k' hk'
  · rw [hitems, hd]
  · rw [hitems, hd]

/-- Witness for C3: the command maps `IO1` to `"ON"` from the startup
state; `LED` is an unchanged other pin. -/
theorem C3_on_command_witness :
    lookupPin (dispatchItems pcapins pcaStart [("IO1", Json.str "ON")]).pins "IO1" =
      some { pin := 1, value := some 1, direction := some PCA9557.DIR_OUT, state := "on" } ∧
    lookupPin (dispatchItems pcapins pcaStart [("IO1", Json.str "ON")]).pins "LED" =
      lookupPin pcapins "LED" ∧
    (dispatchItems pcapins pcaStart [("IO1", Json.str "ON")]).writes =
      [(PCA9557.REG_OUT, write_bit pcaStart.out 1 1),
       (PCA9557.REG_DIR, write_bit pcaStart.conf 1 PCA9557.DIR_OUT)] ∧
    (dispatchItems pcapins pcaStart [("IO1", Json.str "ON")]).events =
      [Event.forcingOn "IO1"] := by
  have h := C3_on_command pcapins pcaStart "IO1" (Json.str "ON")
    { pin := 1, value := none, direction := none, state := "default" }
    (by decide) (by decide)
  exact ⟨h.2.1, h.2.2.1 "LED" (by decide), h.2.2.2.1, h.2.2.2.2⟩

/-- Claim C6, amended: a payload that decodes as UTF-8 text but is not
valid JSON is caught, logged and discarded: no pin state and no driver
state changes, no bus write is issued, and the handler returns normally
(no exception).  (The claim as stated covered every payload that is not
valid JSON; a payload that is not valid UTF-8 instead crashes the handler,
see the counterexample.) -/
theorem C6_invalid_json (pins : PinTable) (pca : PCA9557) :
    mqtt_on_message pins pca (Payload.decoded none) =
      .ok { pins := pins, pca := pca, writes := [], events := [Event.jsonError] } := rfl

/-- Counterexample to claim C6 as stated: a payload of bytes that are not
valid UTF-8 (such as a single 0xFF byte) is in particular not valid JSON,
yet the handler raises an uncaught exception: `msg.payload.decode()` on
line 169 runs before the `try` of line 170 and raises
`UnicodeDecodeError`, which the `except json.JSONDecodeError` clause of
line 172 does not catch. -/
theorem C6_counterexample :
    mqtt_on_message pcapins pcaStart Payload.invalidUtf8
      = .error PyError.unicodeDecodeError := rfl

/-- Claim C8: a recognized pin name paired with a value outside the three
synonym sets leaves the pin table and the driver state unchanged, issues
no bus write, and logs exactly one invalid-value event. -/
theorem C8_invalid_value (pins : PinTable) (pca : PCA9557) (key : String) (v : Json)
    (entry : PinEntry) (hkey : lookupPin pins key = some entry)
    (h0 : pyLower (pyStr v) ∉ ["0", "off", "false"])
    (h1 : pyLower (pyStr v) ∉ ["1", "on", "true"])
    (h2 : pyLower (pyStr v) ∉ ["-1", "release", "default"]) :
    mqtt_on_message pins pca (Payload.decoded (some (Json.obj [(key, v)]))) =
      .ok { pins := pins, pca := pca, writes := [],
            events := [Event.invalidValue key (pyStr v)] } := by
  have hd := dispatchEntry_invalid pins pca key v entry hkey h0 h1 h2
  show Except.ok (dispatchItems pins pca [(key, v)]) = _
  have hitems : dispatchItems pins pca [(key, v)] =
      { pins := (dispatchEntry pins pca key v).pins,
        pca := (dispatchEntry pins pca key v).pca,
        writes := (dispatchEntry pins pca key v).writes,
        events := (dispatchEntry pins pca key v).events } := by
    simp [dispatchItems]
  rw [hitems, hd]

/-- Witness for C8: the command maps `IO1` to `"bogus"` from the startup
state. -/
theorem C8_invalid_value_witness :
    mqtt_on_message pcapins pcaStart
        (Payload.decoded (some (Json.obj [("IO1", Json.str "bogus")]))) =
      .ok { pins := pcapins, pca := pcaStart, writes := [],
            events := [Event.invalidValue "IO1" "bogus"] } := by
  have h := C8_invalid_value pcapins pcaStart "IO1" (Json.str "bogus")
    { pin := 1, value := none, direction := none, state := "default" }
    (by decide) (by decide) (by decide) (by decide)
  exact h

/-- Claim C10: a payload that is valid JSON but not a JSON object (here
the array `[1, 2]`) makes the handler raise an uncaught exception
(`.items()` on a non-dict raises `AttributeError`), so the no-crash
guarantee for malformed payloads does not extend to such payloads. -/
theorem C10_nonobject_crash :
    mqtt_on_message pcapins pcaStart
        (Payload.decoded (some (Json.arr [Json.num 1, Json.num 2]))) =
      .error PyError.attributeError := rfl

/-!
## Claim C2: the pin-state invariant over reachable states
-/

/-- Per-entry invariant relating `state` (mode), `direction` and `value`
(level).  This is the amended form: at startup `direction` is still `None`
while `state` is already `"default"`, so the `"default"` case also allows
an unset direction. -/
def PinInv (e : PinEntry) : Prop :=
  (e.state = "default" → e.direction = none ∨ e.direction = some PCA9557.DIR_IN) ∧
  (e.state = "on" → e.direction = some PCA9557.DIR_OUT ∧ e.value = some 1) ∧
  (e.state = "off" → e.direction = some PCA9557.DIR_OUT ∧ e.value = some 0)

instance (e : PinEntry) : Decidable (PinInv e) := by
  unfold PinInv
  infer_instance

/-- The mode strings are pairwise distinct. -/
lemma ne_off_default : ("off" : String) ≠ "default" := by decide

/-- The mode strings are pairwise distinct. -/
lemma ne_off_on : ("off" : String) ≠ "on" := by decide

/-- The mode strings are pairwise distinct. -/
lemma ne_on_default : ("on" : String) ≠ "default" := by decide

/-- The mode strings are pairwise distinct. -/
lemma ne_on_off : ("on" : String) ≠ "off" := by decide

/-- The mode strings are pairwise distinct. -/
lemma ne_default_on : ("default" : String) ≠ "on" := by decide

/-- The mode strings are pairwise distinct. -/
lemma ne_default_off : ("default" : String) ≠ "off" := by decide

/-- One dispatcher iteration preserves the invariant. -/
lemma pinInv_dispatchEntry {pins : PinTable} {pca : PCA9557} {key : String} {v : Json}
    (h : ∀ kv ∈ pins, PinInv kv.2) :
    ∀ kv ∈ (dispatchEntry pins pca key v).pins, PinInv kv.2 := by
  cases hkey : lookupPin pins key with
  | none =>
      rw [dispatchEntry_unknown pins pca key v hkey]
      exact h
  | some entry =>
      by_cases h0 : pyLower (pyStr v) ∈ ["0", "off", "false"]
      · rw [dispatchEntry_off pins pca key v entry hkey h0]
        intro kv hkv
        rcases mem_setPin hkv with hm | hm
        · exact h kv hm
        · rw [hm]
          exact ⟨fun hc => absurd hc ne_off_default, fun hc => absurd hc ne_off_on,
                 fun _ => ⟨rfl, rfl⟩⟩
      · by_cases h1 : pyLower (pyStr v) ∈ ["1", "on", "true"]
        · rw [dispatchEntry_on pins pca key v entry hkey h1]
          intro kv hkv
          rcases mem_setPin hkv with hm | hm
          · exact h kv hm
          · rw [hm]
            exact ⟨fun hc => absurd hc ne_on_default, fun _ => ⟨rfl, rfl⟩,
                   fun hc => absurd hc ne_on_off⟩
        · by_cases h2 : pyLower (pyStr v) ∈ ["-1", "release", "default"]
          · rw [dispatchEntry_release pins pca key v entry hkey h2]
            intro kv hkv
            rcases mem_setPin hkv with hm | hm
            · exact h kv hm
            · rw [hm]
              exact ⟨fun _ => Or.inr rfl, fun hc => absurd hc ne_default_on,
                     fun hc => absurd hc ne_default_off⟩
          · rw [dispatchEntry_invalid pins pca key v entry hkey h0 h1 h2]
            exact h

/-- A whole command message preserves the invariant. -/
lemma pinInv_dispatchItems :
    ∀ (items : List (String × Json)) (pins : PinTable) (pca : PCA9557),
      (∀ kv ∈ pins, PinInv kv.2) →
      ∀ kv ∈ (dispatchItems pins pca items).pins, PinInv kv.2
  | [], _, _, h => h
  | (k, v) :: rest, pins, pca, h => by
      simp only [dispatchItems]
      exact pinInv_dispatchItems rest _ _ (pinInv_dispatchEntry h)

/-- A handled MQTT message preserves the invariant. -/
lemma pinInv_on_message {pins : PinTable} {pca : PCA9557} {payload : Payload}
    {r : DispatchResult} (hok : mqtt_on_message pins pca payload = .ok r)
    (h : ∀ kv ∈ pins, PinInv kv.2) : ∀ kv ∈ r.pins, PinInv kv.2 := by
  unfold mqtt_on_message at hok
  split at hok
  · exact absurd hok (by simp)
  · obtain rfl : _ = r := by injection hok
    exact h
  · obtain rfl : _ = r := by injection hok
    exact pinInv_dispatchItems _ pins pca h
  · exact absurd hok (by simp)

/-- Claim C2, amended: in every reachable state of the pin table, mode
`"on"` implies direction `OUT` with level 1, mode `"off"` implies
direction `OUT` with level 0, and mode `"default"` implies direction `IN`
or a still-unset (`None`) direction.  (The claim as stated, requiring
direction `IN` outright for `"default"`, fails at the startup state, see
the counterexample.) -/
theorem C2_invariant (pins : PinTable) (pca : PCA9557) (h : Reachable pins pca) :
    ∀ kv ∈ pins, PinInv kv.2 := by
  induction h with
  | start => decide
  | step h1 h2 ih => exact pinInv_on_message h2 ih

/-- Witness for C2: the invariant at the startup table's `LED` entry. -/
theorem C2_invariant_witness :
    PinInv { pin := 0, value := none, direction := none, state := "default" } :=
  C2_invariant pcapins pcaStart Reachable.start
    ("LED", { pin := 0, value := none, direction := none, state := "default" }) (by decide)

/-- Counterexample to claim C2 as stated: the startup state is reachable
(the empty command sequence), its `LED` entry has mode `"default"`, and
its direction is `None`, not `IN`. -/
theorem C2_counterexample :
    Reachable pcapins pcaStart ∧
    lookupPin pcapins "LED" =
      some { pin := 0, value := none, direction := none, state := "default" } ∧
    ¬ (({ pin := 0, value := none, direction := none, state := "default" } : PinEntry).direction
        = some PCA9557.DIR_IN) :=
  ⟨Reachable.start, by decide, by decide⟩

/-!
## Claim C7: unknown pin names are skipped, other entries still apply
-/

/-- One dispatcher iteration never adds or removes pin names. -/
lemma dispatchEntry_isSome (pins : PinTable) (pca : PCA9557) (key : String)
    (v : Json) (k' : String) :
    (lookupPin (dispatchEntry pins pca key v).pins k').isSome
      = (lookupPin pins k').isSome := by
  cases hkey : lookupPin pins key with
  | none => rw [dispatchEntry_unknown pins pca key v hkey]
  | some entry =>
      by_cases h0 : pyLower (pyStr v) ∈ ["0", "off", "false"]
      · rw [dispatchEntry_off pins pca key v entry hkey h0]
        exact isSome_lookupPin_setPin pins key _ k'
      · by_cases h1 : pyLower (pyStr v) ∈ ["1", "on", "true"]
        · rw [dispatchEntry_on pins pca key v entry hkey h1]
          exact isSome_lookupPin_setPin pins key _ k'
        · by_cases h2 : pyLower (pyStr v) ∈ ["-1", "release", "default"]
          · rw [dispatchEntry_release pins pca key v entry hkey h2]
            exact isSome_lookupPin_setPin pins key _ k'
          · rw [dispatchEntry_invalid pins pca key v entry hkey h0 h1 h2]

/-- When `key` is unrecognized, one dispatcher iteration for the pair
`(k, v)` logs an unknown-name event for `key` exactly when `k = key`. -/
lemma dispatchEntry_count_invalidName (pins : PinTable) (pca : PCA9557)
    (k : String) (v : Json) (key : String) (hkey : lookupPin pins key = none) :
    (dispatchEntry pins pca k v).events.count (Event.invalidName key)
      = if k = key then 1 else 0 := by
  cases hk : lookupPin pins k with
  | none =>
      rw [dispatchEntry_unknown pins pca k v hk]
      by_cases hkk : k = key
      · rw [if_pos hkk, hkk]
        simp [List.count_cons]
      · rw [if_neg hkk]
        simp [List.count_cons, hkk]
  | some entry =>
      have hkk : k ≠ key := by
        intro hh
        rw [hh, hkey] at hk
        cases hk
      rw [if_neg hkk]
      by_cases h0 : pyLower (pyStr v) ∈ ["0", "off", "false"]
      · rw [dispatchEntry_off pins pca k v entry hk h0]
        simp [List.count_cons]
      · by_cases h1 : pyLower (pyStr v) ∈ ["1", "on", "true"]
        · rw [dispatchEntry_on pins pca k v entry hk h1]
          simp [List.count_cons]
        · by_cases h2 : pyLower (pyStr v) ∈ ["-1", "release", "default"]
          · rw [dispatchEntry_release pins pca k v entry hk h2]
            simp [List.count_cons]
          · rw [dispatchEntry_invalid pins pca k v entry hk h0 h1 h2]
            simp [List.count_cons]

/-- Over a whole message, the unknown-name events for an unrecognized
`key` are exactly one per occurrence of `key` among the message's keys. -/
lemma dispatchItems_count_invalidName :
    ∀ (items : List (String × Json)) (pins : PinTable) (pca : PCA9557) (key : String),
      lookupPin pins key = none →
      (dispatchItems pins pca items).events.count (Event.invalidName key)
        = items.countP (fun kv => kv.1 == key)
  | [], _, _, _, _ => by simp [dispatchItems]
  | (k, v) :: rest, pins, pca, key, hkey => by
      have hkey' : lookupPin (dispatchEntry pins pca k v).pins key = none := by
        have hd := dispatchEntry_isSome pins pca k v key
        rw [hkey] at hd
        cases hh : lookupPin (dispatchEntry pins pca k v).pins key with
        | none => rfl
        | some e => rw [hh] at hd; cases hd
      simp only [dispatchItems, List.count_append, List.countP_cons]
      rw [dispatchItems_count_invalidName rest _ _ key hkey',
          dispatchEntry_count_invalidName pins pca k v key hkey]
      by_cases hkk : k = key
      · rw [if_pos hkk, if_pos (by simp [hkk])]
        omega
      · rw [if_neg hkk, if_neg (by simp [hkk])]
        omega

/-- Entries with unrecognized keys have no effect on the table, the driver
or the bus: a message behaves like the message restricted to recognized
keys.  `P` is the recognition predicate of the table the message arrived
at (recognition is stable: the dispatcher never adds or removes keys). -/
lemma dispatchItems_filter :
    ∀ (items : List (String × Json)) (pins : PinTable) (pca : PCA9557) (P : String → Bool),
      (∀ k, P k = (lookupPin pins k).isSome) →
      ((dispatchItems pins pca items).pins
          = (dispatchItems pins pca (items.filter fun kv => P kv.1)).pins ∧
       (dispatchItems pins pca items).pca
          = (dispatchItems pins pca (items.filter fun kv => P kv.1)).pca ∧
       (dispatchItems pins pca items).writes
          = (dispatchItems pins pca (items.filter fun kv => P kv.1)).writes)
  | [], _, _, _, _ => ⟨rfl, rfl, rfl⟩
  | (k, v) :: rest, pins, pca, P, hP => by
      by_cases hPk : P k = true
      · have hfilter : ((k, v) :: rest).filter (fun kv => P kv.1)
            = (k, v) :: rest.filter (fun kv => P kv.1) := by
          simp [List.filter_cons, hPk]
        have hP' : ∀ k', P k' = (lookupPin (dispatchEntry pins pca k v).pins k').isSome := by
          intro k'
          rw [dispatchEntry_isSome pins pca k v k']
          exact hP k'
        have ih := dispatchItems_filter rest (dispatchEntry pins pca k v).pins
          (dispatchEntry pins pca k v).pca P hP'
        rw [hfilter]
        simp only [dispatchItems]
        exact ⟨ih.1, ih.2.1, by rw [ih.2.2]⟩
      · have hnone : lookupPin pins k = none := by
          have := hP k
          rw [eq_false_of_ne_true hPk] at this
          cases hh : lookupPin pins k with
          | none => rfl
          | some e => rw [hh] at this; cases this
        have hfilter : ((k, v) :: rest).filter (fun kv => P kv.1)
            = rest.filter (fun kv => P kv.1) := by
          simp [List.filter_cons, hPk]
        have ih := dispatchItems_filter rest pins pca P hP
        rw [hfilter]
        simp only [dispatchItems, dispatchEntry_unknown pins pca k v hnone]
        exact ⟨ih.1, ih.2.1, by rw [← ih.2.2]; simp⟩

/-- Claim C7: for a command message and a key that is not a recognized pin
name, the dispatcher logs exactly one unknown-name event per occurrence of
that key, and the resulting pin table, driver state and bus writes are
those of the message restricted to its recognized keys (so every other
recognized pair still applies and the unknown key changes nothing). -/
theorem C7_unknown_name (pins : PinTable) (pca : PCA9557)
    (items : List (String × Json)) (key : String)
    (hkey : lookupPin pins key = none) :
    (dispatchItems pins pca items).events.count (Event.invalidName key)
        = items.countP (fun kv => kv.1 == key) ∧
    (dispatchItems pins pca items).pins
        = (dispatchItems pins pca
            (items.filter fun kv => (lookupPin pins kv.1).isSome)).pins ∧
    (dispatchItems pins pca items).pca
        = (dispatchItems pins pca
            (items.filter fun kv => (lookupPin pins kv.1).isSome)).pca ∧
    (dispatchItems pins pca items).writes
        = (dispatchItems pins pca
            (items.filter fun kv => (lookupPin pins kv.1).isSome)).writes := by
  refine ⟨dispatchItems_count_invalidName items pins pca key hkey, ?_⟩
  exact dispatchItems_filter items pins pca (fun k => (lookupPin pins k).isSome)
    (fun _ => rfl)

/-- Witness for C7: the message maps the unknown name `NOTAPIN` to `"on"`
and also the recognized `IO1` to `"on"`, from the startup state. -/
theorem C7_unknown_name_witness :
    (dispatchItems pcapins pcaStart
        [("NOTAPIN", Json.str "on"), ("IO1", Json.str "on")]).events.count
        (Event.invalidName "NOTAPIN")
      = List.countP (fun kv => kv.1 == "NOTAPIN")
          [("NOTAPIN", Json.str "on"), ("IO1", Json.str "on")] ∧
    (dispatchItems pcapins pcaStart
        [("NOTAPIN", Json.str "on"), ("IO1", Json.str "on")]).pins
      = (dispatchItems pcapins pcaStart
          ([("NOTAPIN", Json.str "on"), ("IO1", Json.str "on")].filter
            fun kv => (lookupPin pcapins kv.1).isSome)).pins := by
  have h := C7_unknown_name pcapins pcaStart
    [("NOTAPIN", Json.str "on"), ("IO1", Json.str "on")] "NOTAPIN" (by decide)
  exact ⟨h.1, h.2.1⟩

/-!
## Claim C4: disconnected sensors report the all-zero reading

`read_inas` (`bratwurst.py` lines 138-157).  The INA219 driver methods
`voltage()`, `current()`, `power()`, `shunt_voltage()` are an external
library; a device is modelled by the values those calls return during one
tick (`voltage()` is called up to twice, lines 142 and 145).  Python's
floats are modelled by exact rationals; `round` is modelled by exact
round-half-to-even, which like the float version is monotone — the only
property the guard needs.
-/

/-- Round half to even (the tie-breaking rule of Python's `round`). -/
def roundHalfEven (x : ℚ) : Int :=
  if x - ⌊x⌋ < 1/2 then ⌊x⌋
  else if 1/2 < x - ⌊x⌋ then ⌊x⌋ + 1
  else if ⌊x⌋ % 2 = 0 then ⌊x⌋ else ⌊x⌋ + 1

/-- Python `round(x, ndigits)` on exact rationals. -/
def pyRound (x : ℚ) (ndigits : Nat) : ℚ :=
  ((roundHalfEven (x * ((10 ^ ndigits : Nat) : ℚ)) : Int) : ℚ) / ((10 ^ ndigits : Nat) : ℚ)

/-- Rounding half to even never exceeds an integer bound of its input. -/
lemma roundHalfEven_le {x : ℚ} {n : Int} (h : x ≤ (n : ℚ)) : roundHalfEven x ≤ n := by
  have hf : ⌊x⌋ ≤ n := by
    have := Int.floor_mono h
    simpa using this
  unfold roundHalfEven
  split_ifs with h1 h2 h3
  · exact hf
  · have hx : (⌊x⌋ : ℚ) < x := by linarith
    have hn : ⌊x⌋ < n := by exact_mod_cast lt_of_lt_of_le hx h
    omega
  · exact hf
  · push_neg at h1
    have hx : (⌊x⌋ : ℚ) < x := by linarith
    have hn : ⌊x⌋ < n := by exact_mod_cast lt_of_lt_of_le hx h
    omega

/-- A bus voltage of at most 1.0 V still reads as at most 1.0 V after
rounding to two decimals. -/
lemma pyRound_le_one {x : ℚ} (h : x ≤ 1) : pyRound x 2 ≤ 1 := by
  have h100 : x * ((10 ^ 2 : Nat) : ℚ) ≤ ((100 : Int) : ℚ) := by push_cast; linarith
  have hr : roundHalfEven (x * ((10 ^ 2 : Nat) : ℚ)) ≤ (100 : Int) := roundHalfEven_le h100
  unfold pyRound
  rw [div_le_one (by norm_num)]
  have hcast : ((roundHalfEven (x * ((10 ^ 2 : Nat) : ℚ)) : Int) : ℚ) ≤ ((100 : Int) : ℚ) := by
    exact_mod_cast hr
  have : ((10 ^ 2 : Nat) : ℚ) = ((100 : Int) : ℚ) := by norm_num
  rw [this]
  exact hcast

/-- The values returned by one tick's method calls on one INA219 device:
`voltage()` is called once for the guard (line 142) and, when the guard
passes, once more for the published value (line 145). -/
structure INA219 where
  voltage1 : ℚ
  voltage2 : ℚ
  current : ℚ
  power : ℚ
  shunt_voltage : ℚ
deriving DecidableEq

/-- One published per-device reading (the per-name dictionary built by
`read_inas`). -/
structure SensorReading where
  voltage : ℚ
  current : ℚ
  power : ℚ
  shunt_voltage : ℚ
deriving DecidableEq

/-- The body of the `read_inas` loop for one device
(`bratwurst.py` lines 141-156). -/
def read_inas_one (dev : INA219) : SensorReading :=
  if 1 < pyRound dev.voltage1 2 then
    { voltage := pyRound dev.voltage2 2,
      current := pyRound dev.current 1,
      power := pyRound dev.power 0 / 1000,
      shunt_voltage := pyRound dev.shunt_voltage 3 }
  else
    { voltage := 0, current := 0, power := 0, shunt_voltage := 0 }

/-- Function `read_inas` (`bratwurst.py` lines 138-157): one reading per configured
device, in configuration order. -/
def read_inas (devs : List (String × INA219)) : List (String × SensorReading) :=
  devs.map fun kv => (kv.1, read_inas_one kv.2)

/-- Claim C4: on any poll tick, a device whose measured bus voltage is at
most 1.0 V publishes the all-zero reading, never its raw values. -/
theorem C4_disconnected_zero (devs : List (String × INA219)) (name : String)
    (dev : INA219) (hmem : (name, dev) ∈ devs) (hv : dev.voltage1 ≤ 1) :
    read_inas_one dev
        = { voltage := 0, current := 0, power := 0, shunt_voltage := 0 } ∧
    (name, ({ voltage := 0, current := 0, power := 0, shunt_voltage := 0 } : SensorReading))
        ∈ read_inas devs := by
  have hz : read_inas_one dev
      = { voltage := 0, current := 0, power := 0, shunt_voltage := 0 } := by
    unfold read_inas_one
    rw [if_neg (not_lt.mpr (pyRound_le_one hv))]
  refine ⟨hz, ?_⟩
  unfold read_inas
  exact List.mem_map.mpr ⟨(name, dev), hmem, by simp [hz]⟩

/-- Witness for C4: a device with raw bus voltage 0.3 V (and nonzero raw
current, power and shunt voltage) publishes the all-zero reading. -/
theorem C4_disconnected_zero_witness :
    read_inas_one
        { voltage1 := 3/10, voltage2 := 3/10, current := 12, power := 100, shunt_voltage := 2 }
        = { voltage := 0, current := 0, power := 0, shunt_voltage := 0 } ∧
    ("Raspi", ({ voltage := 0, current := 0, power := 0, shunt_voltage := 0 } : SensorReading))
        ∈ read_inas [("Raspi",
            { voltage1 := 3/10, voltage2 := 3/10, current := 12, power := 100,
              shunt_voltage := 2 })] :=
  C4_disconnected_zero _ "Raspi" _ (List.mem_singleton.mpr rfl) (by norm_num)

/-!
## Claim C5: the shape of the published pinstates payload

`main` publishes `json.dumps(pcapins)` on the `pinstates` topic
(`bratwurst.py` line 341).  Each table entry serializes with all four of
its dictionary keys, in insertion order: `pin`, `value`, `direction`,
`state`.
-/

/-- Serialization of an optional integer field (`None` becomes JSON null). -/
def optIntJson : Option Int → Json
  | none => .null
  | some n => .num n

/-- Serialization (`json.dumps`) of one `pcapins` entry: the dictionary holds the keys
`pin`, `value`, `direction`, `state`, in insertion order. -/
def pinEntryJson (e : PinEntry) : Json :=
  .obj [("pin", .num e.pin), ("value", optIntJson e.value),
        ("direction", optIntJson e.direction), ("state", .str e.state)]

/-- Serialization `json.dumps(pcapins)`: the payload published on the pinstates topic. -/
def pinstatesJson (pins : PinTable) : Json :=
  .obj (pins.map fun kv => (kv.1, pinEntryJson kv.2))

/-- The fields of a JSON object (empty for non-objects). -/
def jsonObjFields : Json → List (String × Json)
  | .obj fs => fs
  | _ => []

/-- The key list of a JSON object. -/
def objKeys (j : Json) : List String := (jsonObjFields j).map Prod.fst

/-- Claim C5, amended: every message published on the pinstates topic is a
JSON map from pin name to an object with exactly the fields `pin`,
`value`, `direction` and `state` (the claim as stated omits `pin`, see the
counterexample). -/
theorem C5_pinstates_fields (pins : PinTable) (kv : String × Json)
    (h : kv ∈ jsonObjFields (pinstatesJson pins)) :
    objKeys kv.2 = ["pin", "value", "direction", "state"] := by
  unfold pinstatesJson jsonObjFields at h
  rcases List.mem_map.mp h with ⟨⟨n, e⟩, _, rfl⟩
  rfl

/-- Witness for C5 (amended): the `LED` entry of the startup payload. -/
theorem C5_pinstates_fields_witness :
    objKeys (("LED" : String),
        pinEntryJson { pin := 0, value := none, direction := none, state := "default" }).2
      = ["pin", "value", "direction", "state"] :=
  C5_pinstates_fields pcapins _
    (List.mem_map.mpr
      ⟨("LED", { pin := 0, value := none, direction := none, state := "default" }),
        by decide, rfl⟩)

/-- Counterexample to claim C5 as stated: at the reachable startup state,
the published object for `LED` has the key list
`pin, value, direction, state`, not `value, direction, state`. -/
theorem C5_counterexample :
    Reachable pcapins pcaStart ∧
    ((jsonObjFields (pinstatesJson pcapins)).lookup "LED").map objKeys
      = some ["pin", "value", "direction", "state"] ∧
    (["pin", "value", "direction", "state"] : List String)
      ≠ ["value", "direction", "state"] :=
  ⟨Reachable.start, rfl, by decide⟩
